import Mathlib

/-!
Verification of the label-extraction and validation pipeline of the
eduspark repository (`src/utils/ai_agent.py`, `src/utils/data_loader.py`,
`src/app.py`), shallowly embedded in Lean 4.

Python dictionaries produced by `json.loads` are modelled as insertion
ordered association lists of `String × JValue`; Python `None` and JSON
`null` coincide as `JValue.jnull` (as they do in the Python runtime).
Numeric JSON literals are modelled as integers (`jnum`) and, for
non-integral literals, by their lexeme (`jfloat`); no claim depends on
numeric values.  Exceptions raised by the Python code are modelled with
`Except String`.
-/

/-- A Python value decoded from JSON (the values `json.loads` can return,
as they exist in the Python runtime). -/
inductive JValue where
  | jnull
  | jbool (b : Bool)
  | jnum (n : Int)
  | jfloat (lexeme : String)
  | jstr (s : String)
  | jarr (elems : List JValue)
  | jobj (fields : List (String × JValue))

/-- A decoded Python dict: insertion-ordered key/value pairs. -/
abbrev JObj := List (String × JValue)

/-- Whether every character of the mantissa of a float lexeme is `0`
(ignoring sign, decimal point and exponent), i.e. whether the float is
`0.0` and hence falsy in Python. -/
def floatIsZero (lexeme : String) : Bool :=
  (lexeme.toList.takeWhile (fun c => c != 'e' && c != 'E')).all
    (fun c => !c.isDigit || c == '0')

/-- Python truthiness of a decoded JSON value (`None`, `False`, `0`,
`0.0`, `""`, `[]`, `{}` are falsy). -/
def truthy : JValue → Bool
  | .jnull => false
  | .jbool b => b
  | .jnum n => n != 0
  | .jfloat lx => !(floatIsZero lx)
  | .jstr s => s != ""
  | .jarr xs => !xs.isEmpty
  | .jobj fs => !fs.isEmpty

/-- `d.get(k)` on a dict: the value stored at `k`, with a missing key
giving Python `None` (which coincides with a stored JSON `null`). -/
def pyGet (obj : JObj) (k : String) : JValue :=
  match obj.find? (fun p => p.1 == k) with
  | some p => p.2
  | none => .jnull

/-- `k in d` on a dict: key membership. -/
def hasKey (obj : JObj) (k : String) : Bool :=
  obj.any (fun p => p.1 == k)

/-- `v in d` where `d` is a dict with string keys: membership of `v`
among the keys.  A list or dict value raises `TypeError: unhashable
type`; a non-string hashable value is simply not among the string keys.
(`v` is known truthy at every call site, so `jnull` never occurs here,
but the definition is total.) -/
def pyInKeys (v : JValue) (keys : List String) : Except String Bool :=
  match v with
  | .jstr s => .ok (keys.contains s)
  | .jarr _ => .error "unhashable type: 'list'"
  | .jobj _ => .error "unhashable type: 'dict'"
  | _ => .ok false

/-- Record stored for one top-level major:
`{"id": ..., "children": {sub-major name -> id}}`. -/
structure MajorInfo where
  id : Int
  children : List (String × Int)
deriving DecidableEq, Repr

/-- The three taxonomy dictionaries (`data_dicts`), as loaded from the
JSON files: countries and degrees map display name to id; majors map a
top-level name to its `MajorInfo`. -/
structure DataDicts where
  countries : List (String × Int)
  degrees : List (String × Int)
  majors : List (String × MajorInfo)
deriving DecidableEq, Repr

/-- The key list of a name→id dictionary. -/
def keysOf {α : Type} (d : List (String × α)) : List String :=
  d.map Prod.fst

/-- Lookup of a major entry: models `major in data_dicts['majors']`
followed by `data_dicts['majors'][major]`. -/
def findMajor (majors : List (String × MajorInfo)) (s : String) :
    Option (String × MajorInfo) :=
  majors.find? (fun p => p.1 == s)

/-- One field check of `TagExtractor._validate_result`:
`if result.get(f) and result[f] in vocab: validated[f] = result[f]`.
The membership test runs only when the candidate is truthy (Python
`and` short-circuits), and may raise on unhashable values. -/
def fieldCheck (v : JValue) (keys : List String) : Except String JValue :=
  if truthy v then
    match pyInKeys v keys with
    | .ok true => .ok v
    | .ok false => .ok .jnull
    | .error e => .error e
  else .ok .jnull

/-- The major / sub-major part of `TagExtractor._validate_result`:
the sub-major is examined only when the major candidate is truthy and
an exact key of the majors dictionary, and is accepted only as an exact
key of that major's own `children` dictionary. -/
def checkMajors (majors : List (String × MajorInfo)) (major subMajor : JValue) :
    Except String (JValue × JValue) :=
  if truthy major then
    match major with
    | .jstr s =>
      match findMajor majors s with
      | some entry =>
        if truthy subMajor then
          match pyInKeys subMajor (keysOf entry.2.children) with
          | .ok true => .ok (major, subMajor)
          | .ok false => .ok (major, .jnull)
          | .error e => .error e
        else .ok (major, .jnull)
      | none => .ok (.jnull, .jnull)
    | .jarr _ => .error "unhashable type: 'list'"
    | .jobj _ => .error "unhashable type: 'dict'"
    | _ => .ok (.jnull, .jnull)
  else .ok (.jnull, .jnull)

/-- `TagExtractor._validate_result` on a dict candidate: builds the
fresh dict `{"country": ..., "degree": ..., "major": ..., "sub_major": ...}`,
filling each slot from the candidate only on an exact vocabulary hit,
and carries an `error` entry through unchanged when one is present. -/
def validateResult (dd : DataDicts) (result : JObj) : Except String JObj :=
  match fieldCheck (pyGet result "country") (keysOf dd.countries) with
  | .error e => .error e
  | .ok country =>
  match fieldCheck (pyGet result "degree") (keysOf dd.degrees) with
  | .error e => .error e
  | .ok degree =>
  match checkMajors dd.majors (pyGet result "major") (pyGet result "sub_major") with
  | .error e => .error e
  | .ok (major, subMajor) =>
    .ok ([("country", country), ("degree", degree),
          ("major", major), ("sub_major", subMajor)] ++
      (if hasKey result "error" then [("error", pyGet result "error")] else []))

/-- Python type name of a decoded value (for `AttributeError` text). -/
def pyTypeName : JValue → String
  | .jnull => "NoneType"
  | .jbool _ => "bool"
  | .jnum _ => "int"
  | .jfloat _ => "float"
  | .jstr _ => "str"
  | .jarr _ => "list"
  | .jobj _ => "dict"

/-- `TagExtractor._validate_result` on an arbitrary decoded value:
`result.get(...)` raises `AttributeError` unless the value is a dict. -/
def validateValue (dd : DataDicts) (v : JValue) : Except String JObj :=
  match v with
  | .jobj fields => validateResult dd fields
  | other => .error ("'" ++ pyTypeName other ++ "' object has no attribute 'get'")

/-! ### JSON decoding (`json.loads`), modelled as a recursive-descent
parser over the character list, with fuel for termination.  The JSON
grammar of RFC 8259 is followed (strict mode, as Python's default):
object/array/string/number/true/false/null, whitespace restricted to
space, tab, newline, carriage return; raw control characters inside
strings are rejected; duplicate object keys are resolved as Python
dicts resolve them (value updated in place, first insertion order
kept).  Non-integral numeric literals are kept as their lexeme. -/

/-- JSON structural whitespace (Python `json` accepts exactly these). -/
def jsonWs (c : Char) : Bool :=
  c == ' ' || c == '\t' || c == '\n' || c == '\r'

/-- `d[k] = v` insertion on a dict: update in place, else append. -/
def objInsert (fields : JObj) (k : String) (v : JValue) : JObj :=
  match fields with
  | [] => [(k, v)]
  | (k', v') :: rest =>
    if k' == k then (k', v) :: rest else (k', v') :: objInsert rest k v

/-- Parse the escape character after a backslash in a JSON string.
`\uXXXX` is handled by the caller. -/
def decodeEscape : Char → Option Char
  | '\\' => some '\\'
  | '"' => some '"'
  | 't' => some '\t'
  | 'n' => some '\n'
  | 'r' => some '\r'
  | 'f' => some (Char.ofNat 12)
  | 'b' => some (Char.ofNat 8)
  | '/' => some '/'
  | _ => none

/-- Value of a hexadecimal digit. -/
def hexDigitVal (c : Char) : Option Nat :=
  if c.isDigit then some (c.toNat - '0'.toNat)
  else
    let low := c.toLower
    if low < 'a' || 'f' < low then none
    else some (low.toNat - 'a'.toNat + 10)

/-- Read the body of a JSON string literal, the opening quote already
consumed: the decoded characters plus whatever follows the closing
quote.  The counter only bounds the scan (it starts at the input
length, so it never runs out on real input). -/
def scanStringChars (gas : Nat) (chars : List Char) :
    Except String (List Char × List Char) :=
  match gas, chars with
  | 0, _ => .error "Unterminated string"
  | _ + 1, [] => .error "Unterminated string starting at"
  | g + 1, ch :: more =>
    if ch == '"' then .ok ([], more)
    else if ch == '\\' then
      match more with
      | [] => .error "Unterminated string starting at"
      | esc :: more2 =>
        if esc == 'u' then
          match more2 with
          | h1 :: h2 :: h3 :: h4 :: more3 =>
            match hexDigitVal h1, hexDigitVal h2, hexDigitVal h3, hexDigitVal h4 with
            | some a, some b, some k, some d =>
              (scanStringChars g more3).map (fun r =>
                (Char.ofNat (((a * 16 + b) * 16 + k) * 16 + d) :: r.1, r.2))
            | _, _, _, _ => .error "Invalid \\uXXXX escape"
          | _ => .error "Invalid \\uXXXX escape"
        else
          match decodeEscape esc with
          | some decoded =>
            (scanStringChars g more2).map (fun r => (decoded :: r.1, r.2))
          | none => .error "Invalid \\escape"
    else if ch.toNat < 32 then .error "Invalid control character"
    else
      (scanStringChars g more).map (fun r => (ch :: r.1, r.2))

/-- Decimal value of a list of digit characters. -/
def digitsToNat (ds : List Char) : Nat :=
  ds.foldl (fun n c => n * 10 + (c.toNat - '0'.toNat)) 0

/-- Read a JSON number after an optional leading minus sign: integer
part without leading zeros, optional fraction, optional exponent.
Integral literals become `jnum`; others keep their lexeme as `jfloat`. -/
def scanNumber (neg : Bool) (chars : List Char) :
    Except String (JValue × List Char) :=
  let intPart : Option (List Char × List Char) :=
    match chars with
    | [] => none
    | ch :: more =>
      if ch == '0' then some ([ch], more)
      else if ch.isDigit then some (ch :: more.takeWhile Char.isDigit,
                                    more.dropWhile Char.isDigit)
      else none
  match intPart with
  | none => .error "Expecting value"
  | some (digits, afterInt) =>
    let fracPart : Option (List Char × List Char) :=
      match afterInt with
      | '.' :: d :: more2 =>
        if d.isDigit then
          some ('.' :: d :: more2.takeWhile Char.isDigit,
                more2.dropWhile Char.isDigit)
        else none
      | _ => none
    let (frac, afterFrac) := match fracPart with
      | some (f, r) => (f, r)
      | none => ([], afterInt)
    let expPart : Option (List Char × List Char) :=
      match afterFrac with
      | em :: more4 =>
        if em == 'e' || em == 'E' then
          match more4 with
          | sgn :: d :: more5 =>
            if (sgn == '+' || sgn == '-') && d.isDigit then
              some (em :: sgn :: d :: more5.takeWhile Char.isDigit,
                    more5.dropWhile Char.isDigit)
            else if sgn.isDigit then
              some (em :: more4.takeWhile Char.isDigit,
                    more4.dropWhile Char.isDigit)
            else none
          | [sgn] =>
            if sgn.isDigit then some ([em, sgn], []) else none
          | [] => none
        else none
      | [] => none
    let (ex, afterExp) := match expPart with
      | some (x, r) => (x, r)
      | none => ([], afterFrac)
    if frac.isEmpty && ex.isEmpty then
      let n : Int := Int.ofNat (digitsToNat digits)
      .ok (.jnum (if neg then -n else n), afterExp)
    else
      .ok (.jfloat (String.mk ((if neg then ['-'] else []) ++ digits ++ frac ++ ex)),
           afterExp)

mutual

/-- Read one JSON value at the head of `chars` (leading whitespace
already consumed). -/
def readValue (gas : Nat) (chars : List Char) :
    Except String (JValue × List Char) :=
  match gas, chars with
  | 0, _ => .error "Recursion limit"
  | _ + 1, [] => .error "Expecting value"
  | g + 1, ch :: more =>
    if ch == '{' then readObjectRest g (more.dropWhile jsonWs) [] true
    else if ch == '[' then readArrayRest g (more.dropWhile jsonWs) [] true
    else if ch == '"' then
      (scanStringChars (more.length + 1) more).map (fun r =>
        (.jstr (String.mk r.1), r.2))
    else if ch == 't' then
      if "rue".toList.isPrefixOf more then .ok (.jbool true, more.drop 3)
      else .error "Expecting value"
    else if ch == 'f' then
      if "alse".toList.isPrefixOf more then .ok (.jbool false, more.drop 4)
      else .error "Expecting value"
    else if ch == 'n' then
      if "ull".toList.isPrefixOf more then .ok (.jnull, more.drop 3)
      else .error "Expecting value"
    else if ch == '-' then scanNumber true more
    else if ch.isDigit then scanNumber false chars
    else .error "Expecting value"

/-- Read the members of a JSON object, the `{` and any following
whitespace already consumed; `first` records that no member has been
read yet (so `}` may close immediately). -/
def readObjectRest (gas : Nat) (chars : List Char) (fields : JObj)
    (first : Bool) : Except String (JValue × List Char) :=
  match gas, chars with
  | 0, _ => .error "Recursion limit"
  | _ + 1, [] => .error "Expecting property name enclosed in double quotes"
  | g + 1, ch :: more =>
    if ch == '}' && first then .ok (.jobj fields, more)
    else if ch == '"' then
      match scanStringChars (more.length + 1) more with
      | .error e => .error e
      | .ok (keyChars, keyRest) =>
        match keyRest.dropWhile jsonWs with
        | ':' :: afterColon =>
          match readValue g (afterColon.dropWhile jsonWs) with
          | .error e => .error e
          | .ok (v, valRest) =>
            let fields2 := objInsert fields (String.mk keyChars) v
            match valRest.dropWhile jsonWs with
            | ',' :: afterComma =>
              readObjectRest g (afterComma.dropWhile jsonWs) fields2 false
            | '}' :: afterBrace => .ok (.jobj fields2, afterBrace)
            | _ => .error "Expecting ',' delimiter"
        | _ => .error "Expecting ':' delimiter"
    else .error "Expecting property name enclosed in double quotes"

/-- Read the elements of a JSON array, the `[` and any following
whitespace already consumed. -/
def readArrayRest (gas : Nat) (chars : List Char) (items : List JValue)
    (first : Bool) : Except String (JValue × List Char) :=
  match gas, chars with
  | 0, _ => .error "Recursion limit"
  | _ + 1, [] => .error "Expecting value"
  | g + 1, ch :: _ =>
    if ch == ']' && first then .ok (.jarr items.reverse, (chars.drop 1))
    else
      match readValue g chars with
      | .error e => .error e
      | .ok (v, valRest) =>
        match valRest.dropWhile jsonWs with
        | ',' :: afterComma =>
          readArrayRest g (afterComma.dropWhile jsonWs) (v :: items) false
        | ']' :: afterBracket => .ok (.jarr (v :: items).reverse, afterBracket)
        | _ => .error "Expecting ',' delimiter"

end

/-- `json.loads`: decode one JSON document; anything but structural
whitespace after the value is an error, an empty document is an error. -/
def jsonLoads (s : String) : Except String JValue :=
  let cs := s.toList.dropWhile jsonWs
  match readValue (cs.length + 1) cs with
  | .error e => .error e
  | .ok (v, rest) =>
    if (rest.dropWhile jsonWs).isEmpty then .ok v
    else .error "Extra data"

example : jsonLoads "\x7b\"country\": \"美国\", \"degree\": \"硕士\"\x7d" =
    .ok (.jobj [("country", .jstr "美国"), ("degree", .jstr "硕士")]) := rfl

example : jsonLoads "[1, 2]" = .ok (.jarr [.jnum 1, .jnum 2]) := rfl

example : jsonLoads "I am not sure." = .error "Expecting value" := rfl

example : jsonLoads "" = .error "Expecting value" := rfl

example : jsonLoads " \x7b\"a\": [true, null, -3, 1.5e2]\x7d " =
    .ok (.jobj [("a", .jarr [.jbool true, .jnull, .jnum (-3), .jfloat "1.5e2"])]) := rfl

example : jsonLoads "\x7b\"a\": 1\x7d x" = .error "Extra data" := rfl

/-! ### Response parsing (`TagExtractor._parse_response`) and the
extraction wrapper (`TagExtractor.extract`). -/

/-- Whitespace as matched by the regex class and by `str.strip()`
(ASCII range; the inputs of interest contain no exotic Unicode
whitespace). -/
def reWs (c : Char) : Bool :=
  c == ' ' || c == '\t' || c == '\n' || c == '\r'
    || c == Char.ofNat 11 || c == Char.ofNat 12

/-- Split a character list around the first occurrence of `pat`:
`some (before, after)` with the occurrence itself removed. -/
def splitFirst (pat : List Char) : List Char → Option (List Char × List Char)
  | [] => if pat.isEmpty then some ([], []) else none
  | c :: rest =>
    if pat.isPrefixOf (c :: rest) then some ([], (c :: rest).drop pat.length)
    else
      match splitFirst pat rest with
      | some (b, a) => some (c :: b, a)
      | none => none

/-- Drop trailing whitespace. -/
def dropTrailingWs (s : List Char) : List Char :=
  (s.reverse.dropWhile reWs).reverse

/-- The search for a fenced JSON block: the interior of the first
occurrence of a backtick fence tagged `json`, up to the next closing
fence, with surrounding whitespace stripped (the lazy group of the
regex); `none` when no complete fenced block exists. -/
def extractFenced (s : List Char) : Option (List Char) :=
  match splitFirst "```json".toList s with
  | none => none
  | some (_, rest) =>
    match splitFirst "```".toList (rest.dropWhile reWs) with
    | none => none
    | some (interior, _) => some (dropTrailingWs interior)

/-- `str.strip()`: remove leading and trailing whitespace. -/
def pyStrip (s : String) : String :=
  String.mk (dropTrailingWs (s.toList.dropWhile reWs))

/-- The string `_parse_response` hands to `json.loads`: the interior of
a fenced JSON block when one is found, otherwise the whole trimmed
response text. -/
def selectJsonSource (text : String) : String :=
  match extractFenced text.toList with
  | some interior => String.mk interior
  | none => pyStrip text

/-- The all-null recovery dict built by `_parse_response` on a decode
failure. -/
def parseFailureObj (e : String) : JValue :=
  .jobj [("country", .jnull), ("degree", .jnull), ("major", .jnull),
         ("sub_major", .jnull), ("error", .jstr ("JSON解析失败: " ++ e))]

/-- `TagExtractor._parse_response`: decode the selected JSON source;
a decode failure is recovered locally into the all-null dict with an
`error` diagnostic, never raised. -/
def parseResponse (text : String) : JValue :=
  match jsonLoads (selectJsonSource text) with
  | .ok v => v
  | .error e => parseFailureObj e

example : parseResponse "Sure! ```json\n\x7b\"country\": \"美国\", \"degree\": \"硕士\"\x7d\n```" =
    .jobj [("country", .jstr "美国"), ("degree", .jstr "硕士")] := rfl

example : parseResponse "I am not sure." =
    parseFailureObj "Expecting value" := rfl

/-- The outcome of the single chat-completion round trip
(`self.llm(messages)`): the response text, or a raised transport
exception carrying its message. -/
inductive CallOutcome where
  | success (text : String)
  | failure (msg : String)

/-- The dict `extract` returns from its `except` handler: all labels
null, the exception message in `error`, and null debug fields. -/
def exceptionResult (e : String) : JObj :=
  [("country", .jnull), ("degree", .jnull), ("major", .jnull),
   ("sub_major", .jnull), ("error", .jstr e),
   ("_raw_ai_response", .jnull), ("_full_ai_response", .jnull)]

/-- `TagExtractor.extract`: run the model call, parse, validate, then
attach the raw parsed value and the full response text as debug
fields; any exception raised on the way (the transport call raising,
or validation raising on a non-dict parse) is caught and converted
into the all-null dict whose `error` field holds the message. -/
def extract (dd : DataDicts) (outcome : CallOutcome) : JObj :=
  match outcome with
  | .failure e => exceptionResult e
  | .success text =>
    let raw := parseResponse text
    match validateValue dd raw with
    | .ok validated =>
      validated ++ [("_raw_ai_response", raw), ("_full_ai_response", .jstr text)]
    | .error e => exceptionResult e

/-! ### Agent construction (`create_ai_agent`).  `setup_langsmith`
only reads an optional tracing credential and sets environment
variables (no network I/O); the chat-model client is constructed only
after the credential check, and no backend call happens during
construction.  The observable effects are tracked explicitly. -/

/-- Side effects of agent construction and use, in order. -/
inductive Effect where
  | createChatClient
  | backendCall
deriving DecidableEq, Repr

/-- The extraction agent: the chat client configuration together with
the system prompt and the taxonomy captured by `TagExtractor`. -/
structure Agent where
  model_name : String
  system_prompt : String
  dicts : DataDicts

/-! ### Prompt construction: `create_default_prompt` together with the
renderings of `data_loader.py`, and the `DEFAULT_PROMPT_TEMPLATE` +
`str.format` path of `app.py`. -/

/-- `sep.join(xs)` on a list of strings. -/
def pyJoin (sep : String) : List String → String
  | [] => ""
  | [x] => x
  | x :: y :: rest => x ++ sep ++ pyJoin sep (y :: rest)

/-- `get_country_list`: country names joined by the enumeration comma. -/
def get_country_list (countries : List (String × Int)) : String :=
  pyJoin "、" (keysOf countries)

/-- `get_degree_list`: degree names joined by the enumeration comma. -/
def get_degree_list (degrees : List (String × Int)) : String :=
  pyJoin "、" (keysOf degrees)

/-- `get_major_list`: one line per top-level major followed by one
indented line per sub-major, joined by newlines. -/
def get_major_list (majors : List (String × MajorInfo)) : String :=
  pyJoin "\n"
    ((majors.map (fun p => p.1 :: p.2.children.map (fun c => "  - " ++ c.1))).flatten)

/-- Literal piece 0 of the `create_default_prompt` f-string
(doubled braces already collapsed, as the f-string renders them). -/
def defaultPromptPiece0 : String :=
  "\n你是一个专业的留学标签识别助手。你的任务是从用户输入的自然语言中准确提取出国家、专业、学历三个标签。\n\n## 标签池（你只能从以下标签中选择，不能自创标签）\n\n### 国家标签池：\n"

/-- Literal piece 1 of the `create_default_prompt` f-string
(doubled braces already collapsed, as the f-string renders them). -/
def defaultPromptPiece1 : String :=
  "\n\n### 学历标签池：\n"

/-- Literal piece 2 of the `create_default_prompt` f-string
(doubled braces already collapsed, as the f-string renders them). -/
def defaultPromptPiece2 : String :=
  "\n\n### 专业标签池：\n"

/-- Literal piece 3 of the `create_default_prompt` f-string
(doubled braces already collapsed, as the f-string renders them). -/
def defaultPromptPiece3 : String :=
  "\n\n## 提取规则\n\n1. **国家标签**：从国家标签池中选择最匹配的国家名称\n2. **学历标签**：从学历标签池中选择最匹配的学历名称\n3. **专业标签**：必须输出\"一级专业+二级专业\"的组合\n   - 如果用户提到的是二级专业，需要找到对应的一级专业\n   - 格式：一级专业 → 二级专业\n   - 例如：理工科 → 计算机、商科 → 金融学\n\n## 输出格式\n\n请严格按照以下JSON格式输出，不要包含任何其他文本：\n\n```json\n\x7b\n  \"country\": \"识别到的国家名称或null\",\n  \"degree\": \"识别到的学历名称或null\", \n  \"major\": \"识别到的一级专业名称或null\",\n  \"sub_major\": \"识别到的二级专业名称或null\"\n\x7d\n```\n\n## 注意事项\n\n1. 如果某个标签无法识别，请返回最接近的选项，严禁返回空\n2. 专业必须严格按照一级→二级的包含关系\n3. 只能使用标签池中的准确名称，不能自创或修改\n4. 输出必须是有效的JSON格式\n\n现在请分析用户输入并提取标签：\n"

/-- `DEFAULT_PROMPT_TEMPLATE` of `src/app.py`, verbatim: a plain
string still holding the three placeholders and doubled braces. -/
def DEFAULT_PROMPT_TEMPLATE : String :=
  "\n你是一个专业的留学标签识别助手。你的任务是从用户输入的自然语言中准确提取出国家、专业、学历三个标签。\n\n## 标签池（你只能从以下标签中选择，不能自创标签）\n\n### 国家标签池：\n\x7bcountry_list\x7d\n\n### 学历标签池：\n\x7bdegree_list\x7d\n\n### 专业标签池：\n\x7bmajor_list\x7d\n\n## 提取规则\n\n1. **国家标签**：从国家标签池中选择最匹配的国家名称\n2. **学历标签**：从学历标签池中选择最匹配的学历名称\n3. **专业标签**：必须输出\"一级专业+二级专业\"的组合\n   - 如果用户提到的是二级专业，需要找到对应的一级专业\n   - 格式：一级专业 → 二级专业\n   - 例如：理工科 → 计算机、商科 → 金融学\n\n## 输出格式\n请严格按照以下JSON格式输出，不要包含任何其他文本：\n```json\n\x7b\x7b\n  \"country\": \"识别到的国家名称或null\",\n  \"degree\": \"识别到的学历名称或null\", \n  \"major\": \"识别到的一级专业名称或null\",\n  \"sub_major\": \"识别到的二级专业名称或null\"\n\x7d\x7d\n```\n\n## 注意事项\n\n1. 如果某个标签无法识别，不允许返回null，严禁返回空，必须选择一个最接近的选项\n2. 专业必须严格按照一级→二级的包含关系\n3. 只能使用标签池中的准确名称，不能自创或修改\n4. 输出必须是有效的JSON格式\n\n现在请分析用户输入并提取标签：\n"

/-- `create_default_prompt`: the f-string of `ai_agent.py` with the
three vocabulary renderings interpolated. -/
def create_default_prompt (dd : DataDicts) : String :=
  defaultPromptPiece0 ++ get_country_list dd.countries ++
  defaultPromptPiece1 ++ get_degree_list dd.degrees ++
  defaultPromptPiece2 ++ get_major_list dd.majors ++
  defaultPromptPiece3

/-- Replace every occurrence of a (non-empty) pattern, left to right and
non-overlapping, as `str.replace` does; the fuel argument is the length
of the remaining input (one character is always consumed per step, so
that much fuel completes the scan). -/
def replaceAllAux (pat rep : List Char) : Nat → List Char → List Char
  | 0, s => s
  | _ + 1, [] => []
  | fuel + 1, c :: rest =>
    if pat.isPrefixOf (c :: rest) && !pat.isEmpty then
      rep ++ replaceAllAux pat rep fuel ((c :: rest).drop pat.length)
    else c :: replaceAllAux pat rep fuel rest

/-- `s.replace(pat, rep)`. -/
def strReplace (s pat rep : String) : String :=
  String.mk (replaceAllAux pat.toList rep.toList s.toList.length s.toList)

/-- `pat in s` on strings: substring containment. -/
def containsSub (s pat : String) : Bool :=
  (splitFirst pat.toList s.toList).isSome

/-- `template.format(country_list=c, degree_list=d, major_list=m)`,
modelled for templates whose only replacement fields are those three
names and for substituted values containing no brace characters (true
of every use in the repository): substitute the fields, then collapse
the doubled braces. -/
def pyFormat (tmpl c d m : String) : String :=
  strReplace (strReplace (strReplace (strReplace (strReplace
    tmpl "\x7bcountry_list\x7d" c) "\x7bdegree_list\x7d" d)
    "\x7bmajor_list\x7d" m) "\x7b\x7b" "\x7b") "\x7d\x7d" "\x7d"

/-- The country rendering built inline in `app.py` `main`. -/
def appCountryList (dd : DataDicts) : String :=
  pyJoin "、" (dd.countries.map Prod.fst)

/-- The degree rendering built inline in `app.py` `main`. -/
def appDegreeList (dd : DataDicts) : String :=
  pyJoin "、" (dd.degrees.map Prod.fst)

/-- The major rendering built inline in `app.py` `main`: per major, the
name, a newline, and the indented sub-majors. -/
def appMajorList (dd : DataDicts) : String :=
  pyJoin "\n"
    (dd.majors.map (fun p =>
      p.1 ++ "\n  - " ++ pyJoin "\n  - " (p.2.children.map Prod.fst)))

/-- The prompt `app.py` `main` sends to `create_ai_agent`: a template
containing any of the three placeholders is formatted with the inline
renderings; a template containing none is used verbatim. -/
def buildPromptApp (dd : DataDicts) (prompt_to_use : String) : String :=
  if containsSub prompt_to_use "\x7bcountry_list\x7d"
      || containsSub prompt_to_use "\x7bdegree_list\x7d"
      || containsSub prompt_to_use "\x7bmajor_list\x7d" then
    pyFormat prompt_to_use (appCountryList dd) (appDegreeList dd) (appMajorList dd)
  else prompt_to_use

/-- `create_ai_agent`: check the credential, then build the chat client
and the `TagExtractor`; a missing (empty) credential raises
`ValueError` before the chat-model client is created, so the effect
list of the failing run is empty.  A truthy custom prompt is used as
the system prompt; `None` or the empty string fall back to the default
prompt. -/
def create_ai_agent (api_key : String) (model_name : String) (dd : DataDicts)
    (custom_prompt : Option String) : List Effect × Except String Agent :=
  if api_key == "" then ([], .error "请配置DASHSCOPE_API_KEY")
  else
    let system_prompt :=
      match custom_prompt with
      | some p => if p != "" then p else create_default_prompt dd
      | none => create_default_prompt dd
    ([.createChatClient], .ok ⟨model_name, system_prompt, dd⟩)

/-- A small concrete taxonomy used for concrete evaluations, matching
the spec's scenarios: `计算机` is a child of `理工科`, not of `商科`. -/
def ddTest : DataDicts :=
  { countries := [("美国", 1), ("英国", 2)]
  , degrees := [("本科", 1), ("硕士", 2)]
  , majors := [("商科", ⟨1, [("金融学", 11)]⟩), ("理工科", ⟨2, [("计算机", 21)]⟩)] }

example :
    validateResult ddTest
      [("country", .jstr "美国"), ("degree", .jstr "硕士")] =
    .ok [("country", .jstr "美国"), ("degree", .jstr "硕士"),
         ("major", .jnull), ("sub_major", .jnull)] := rfl

example :
    validateResult ddTest
      [("major", .jstr "商科"), ("sub_major", .jstr "计算机")] =
    .ok [("country", .jnull), ("degree", .jnull),
         ("major", .jstr "商科"), ("sub_major", .jnull)] := rfl

/-! ### Structure of validated results. -/

lemma fieldCheck_ok_cases {v : JValue} {keys : List String} {w : JValue}
    (h : fieldCheck v keys = .ok w) :
    w = .jnull ∨ ∃ s, w = .jstr s ∧ v = .jstr s ∧ s ≠ "" ∧ s ∈ keys := by
  cases v with
  | jstr s =>
    by_cases hs : s = ""
    · subst hs; simp [fieldCheck, truthy] at h; exact .inl h.symm
    · by_cases hc : s ∈ keys
      · refine .inr ⟨s, ?_, rfl, hs, hc⟩
        simp [fieldCheck, truthy, pyInKeys, hs, hc] at h; exact h.symm
      · simp [fieldCheck, truthy, pyInKeys, hs, hc] at h; exact .inl h.symm
  | jnull => simp [fieldCheck, truthy] at h; exact .inl h.symm
  | jbool b =>
    cases b <;> simp [fieldCheck, truthy, pyInKeys] at h <;> exact .inl h.symm
  | jnum n =>
    by_cases hn : n = 0
    · simp [fieldCheck, truthy, hn] at h; exact .inl h.symm
    · simp [fieldCheck, truthy, hn, pyInKeys] at h; exact .inl h.symm
  | jfloat lx =>
    by_cases hz : floatIsZero lx
    · simp [fieldCheck, truthy, hz] at h; exact .inl h.symm
    · simp [fieldCheck, truthy, hz, pyInKeys] at h; exact .inl h.symm
  | jarr xs =>
    by_cases he : xs.isEmpty
    · simp [fieldCheck, truthy, he] at h; exact .inl h.symm
    · simp [fieldCheck, truthy, he, pyInKeys] at h
  | jobj fs =>
    by_cases he : fs.isEmpty
    · simp [fieldCheck, truthy, he] at h; exact .inl h.symm
    · simp [fieldCheck, truthy, he, pyInKeys] at h

lemma fieldCheck_of_falsy {v : JValue} {keys : List String}
    (h : truthy v = false) : fieldCheck v keys = .ok .jnull := by
  simp [fieldCheck, h]

lemma fieldCheck_accept {s : String} {keys : List String}
    (hs : s ≠ "") (hc : s ∈ keys) :
    fieldCheck (.jstr s) keys = .ok (.jstr s) := by
  simp [fieldCheck, truthy, pyInKeys, hs, hc]

lemma fieldCheck_reject {s : String} {keys : List String}
    (hc : s ∉ keys) :
    fieldCheck (.jstr s) keys = .ok .jnull := by
  by_cases hs : s = ""
  · subst hs; simp [fieldCheck, truthy]
  · simp [fieldCheck, truthy, pyInKeys, hs, hc]

lemma checkMajors_ok_cases {M : List (String × MajorInfo)} {major subMajor a b : JValue}
    (h : checkMajors M major subMajor = .ok (a, b)) :
    (a = .jnull ∧ b = .jnull) ∨
    ∃ s entry, a = .jstr s ∧ major = .jstr s ∧ s ≠ "" ∧ findMajor M s = some entry ∧
      (b = .jnull ∨ ∃ t, b = .jstr t ∧ subMajor = .jstr t ∧ t ≠ "" ∧
        t ∈ keysOf entry.2.children) := by
  cases major with
  | jstr s =>
    by_cases hs : s = ""
    · subst hs; simp [checkMajors, truthy] at h
      exact .inl ⟨h.1.symm, h.2.symm⟩
    · cases hf : findMajor M s with
      | none =>
        simp [checkMajors, truthy, hs, hf] at h
        exact .inl ⟨h.1.symm, h.2.symm⟩
      | some entry =>
        cases subMajor with
        | jstr t =>
          by_cases ht : t = ""
          · subst ht; simp [checkMajors, truthy, hs, hf] at h
            exact .inr ⟨s, entry, h.1.symm, rfl, hs, hf, .inl h.2.symm⟩
          · by_cases hc : t ∈ keysOf entry.2.children
            · simp [checkMajors, truthy, hs, hf, pyInKeys, ht, hc] at h
              exact .inr ⟨s, entry, h.1.symm, rfl, hs, hf,
                .inr ⟨t, h.2.symm, rfl, ht, hc⟩⟩
            · simp [checkMajors, truthy, hs, hf, pyInKeys, ht, hc] at h
              exact .inr ⟨s, entry, h.1.symm, rfl, hs, hf, .inl h.2.symm⟩
        | jnull =>
          simp [checkMajors, truthy, hs, hf] at h
          exact .inr ⟨s, entry, h.1.symm, rfl, hs, hf, .inl h.2.symm⟩
        | jbool bb =>
          cases bb <;> simp [checkMajors, truthy, hs, hf, pyInKeys] at h <;>
            exact .inr ⟨s, entry, h.1.symm, rfl, hs, hf, .inl h.2.symm⟩
        | jnum n =>
          by_cases hn : n = 0 <;>
            simp [checkMajors, truthy, hs, hf, hn, pyInKeys] at h <;>
            exact .inr ⟨s, entry, h.1.symm, rfl, hs, hf, .inl h.2.symm⟩
        | jfloat lx =>
          by_cases hz : floatIsZero lx <;>
            simp [checkMajors, truthy, hs, hf, hz, pyInKeys] at h <;>
            exact .inr ⟨s, entry, h.1.symm, rfl, hs, hf, .inl h.2.symm⟩
        | jarr xs =>
          by_cases he : xs.isEmpty
          · simp [checkMajors, truthy, hs, hf, he] at h
            exact .inr ⟨s, entry, h.1.symm, rfl, hs, hf, .inl h.2.symm⟩
          · simp [checkMajors, truthy, hs, hf, he, pyInKeys] at h
        | jobj fs =>
          by_cases he : fs.isEmpty
          · simp [checkMajors, truthy, hs, hf, he] at h
            exact .inr ⟨s, entry, h.1.symm, rfl, hs, hf, .inl h.2.symm⟩
          · simp [checkMajors, truthy, hs, hf, he, pyInKeys] at h
  | jnull => simp [checkMajors, truthy] at h; exact .inl ⟨h.1.symm, h.2.symm⟩
  | jbool b2 =>
    cases b2 <;> simp [checkMajors, truthy] at h <;> exact .inl ⟨h.1.symm, h.2.symm⟩
  | jnum n =>
    by_cases hn : n = 0 <;> simp [checkMajors, truthy, hn] at h <;>
      exact .inl ⟨h.1.symm, h.2.symm⟩
  | jfloat lx =>
    by_cases hz : floatIsZero lx <;> simp [checkMajors, truthy, hz] at h <;>
      exact .inl ⟨h.1.symm, h.2.symm⟩
  | jarr xs =>
    by_cases he : xs.isEmpty
    · simp [checkMajors, truthy, he] at h; exact .inl ⟨h.1.symm, h.2.symm⟩
    · simp [checkMajors, truthy, he] at h
  | jobj fs =>
    by_cases he : fs.isEmpty
    · simp [checkMajors, truthy, he] at h; exact .inl ⟨h.1.symm, h.2.symm⟩
    · simp [checkMajors, truthy, he] at h

lemma checkMajors_of_falsy {M : List (String × MajorInfo)} {major subMajor : JValue}
    (h : truthy major = false) :
    checkMajors M major subMajor = .ok (.jnull, .jnull) := by
  simp [checkMajors, h]

lemma checkMajors_accept_major {M : List (String × MajorInfo)} {s : String}
    {entry : String × MajorInfo} (hs : s ≠ "") (hf : findMajor M s = some entry) :
    checkMajors M (.jstr s) .jnull = .ok (.jstr s, .jnull) := by
  simp [checkMajors, truthy, hs, hf]

lemma checkMajors_accept_both {M : List (String × MajorInfo)} {s t : String}
    {entry : String × MajorInfo} (hs : s ≠ "") (hf : findMajor M s = some entry)
    (ht : t ≠ "") (hc : t ∈ keysOf entry.2.children) :
    checkMajors M (.jstr s) (.jstr t) = .ok (.jstr s, .jstr t) := by
  simp [checkMajors, truthy, hs, hf, pyInKeys, ht, hc]

lemma validateResult_ok_elim {dd : DataDicts} {c v : JObj}
    (h : validateResult dd c = .ok v) :
    ∃ co de ma su,
      fieldCheck (pyGet c "country") (keysOf dd.countries) = .ok co ∧
      fieldCheck (pyGet c "degree") (keysOf dd.degrees) = .ok de ∧
      checkMajors dd.majors (pyGet c "major") (pyGet c "sub_major") = .ok (ma, su) ∧
      v = [("country", co), ("degree", de), ("major", ma), ("sub_major", su)] ++
        (if hasKey c "error" then [("error", pyGet c "error")] else []) := by
  unfold validateResult at h
  cases h1 : fieldCheck (pyGet c "country") (keysOf dd.countries) with
  | error e => rw [h1] at h; cases h
  | ok co =>
    rw [h1] at h
    cases h2 : fieldCheck (pyGet c "degree") (keysOf dd.degrees) with
    | error e => rw [h2] at h; cases h
    | ok de =>
      rw [h2] at h
      cases h3 : checkMajors dd.majors (pyGet c "major") (pyGet c "sub_major") with
      | error e => rw [h3] at h; cases h
      | ok pair =>
        obtain ⟨ma, su⟩ := pair
        rw [h3] at h
        exact ⟨co, de, ma, su, rfl, rfl, rfl, ((Except.ok.injEq _ _).mp h).symm⟩

lemma validateResult_ok_intro {dd : DataDicts} {c : JObj} {co de ma su : JValue}
    (h1 : fieldCheck (pyGet c "country") (keysOf dd.countries) = .ok co)
    (h2 : fieldCheck (pyGet c "degree") (keysOf dd.degrees) = .ok de)
    (h3 : checkMajors dd.majors (pyGet c "major") (pyGet c "sub_major") = .ok (ma, su)) :
    validateResult dd c =
      .ok ([("country", co), ("degree", de), ("major", ma), ("sub_major", su)] ++
        (if hasKey c "error" then [("error", pyGet c "error")] else [])) := by
  unfold validateResult
  rw [h1, h2, h3]

lemma pyGet_built_country (co de ma su : JValue) (tail : JObj) :
    pyGet ([("country", co), ("degree", de), ("major", ma), ("sub_major", su)] ++ tail)
      "country" = co := rfl

lemma pyGet_built_degree (co de ma su : JValue) (tail : JObj) :
    pyGet ([("country", co), ("degree", de), ("major", ma), ("sub_major", su)] ++ tail)
      "degree" = de := rfl

lemma pyGet_built_major (co de ma su : JValue) (tail : JObj) :
    pyGet ([("country", co), ("degree", de), ("major", ma), ("sub_major", su)] ++ tail)
      "major" = ma := rfl

lemma pyGet_built_sub_major (co de ma su : JValue) (tail : JObj) :
    pyGet ([("country", co), ("degree", de), ("major", ma), ("sub_major", su)] ++ tail)
      "sub_major" = su := rfl

lemma pyGet_built_error (co de ma su w : JValue) :
    pyGet ([("country", co), ("degree", de), ("major", ma), ("sub_major", su)] ++
      [("error", w)]) "error" = w := rfl

lemma hasKey_built_no_error (co de ma su : JValue) :
    hasKey [("country", co), ("degree", de), ("major", ma), ("sub_major", su)]
      "error" = false := rfl

lemma hasKey_built_error (co de ma su w : JValue) :
    hasKey ([("country", co), ("degree", de), ("major", ma), ("sub_major", su)] ++
      [("error", w)]) "error" = true := rfl

lemma pyGet_built_no_error (co de ma su : JValue) :
    pyGet [("country", co), ("degree", de), ("major", ma), ("sub_major", su)]
      "error" = .jnull := rfl

/-! ### Claims. -/

/-- C1: in every result produced by the Validator, a non-null
`sub_major` entails a non-null `major` that is a key of the majors
dictionary with `sub_major` an exact key of that major's own children
mapping; and a sub-major text that is not a child of the returned
major is resolved to null, whatever other parent it may belong to. -/
theorem sub_major_requires_containing_major
    (dd : DataDicts) (c v : JObj) (h : validateResult dd c = .ok v) :
    (pyGet v "sub_major" = .jnull ∨
      ∃ s t entry, pyGet v "major" = .jstr s ∧ pyGet v "sub_major" = .jstr t ∧
        findMajor dd.majors s = some entry ∧ t ∈ keysOf entry.2.children) ∧
    (∀ s entry t, pyGet v "major" = .jstr s → findMajor dd.majors s = some entry →
      t ∉ keysOf entry.2.children → pyGet v "sub_major" ≠ .jstr t) := by
  obtain ⟨co, de, ma, su, h1, h2, h3, hv⟩ := validateResult_ok_elim h
  subst hv
  rw [pyGet_built_major, pyGet_built_sub_major]
  rcases checkMajors_ok_cases h3 with ⟨hma, hsu⟩ | ⟨s, entry, ha, _, _, hf, hb⟩
  · subst hma; subst hsu
    exact ⟨.inl rfl, fun s entry t _ _ _ => by simp⟩
  · subst ha
    rcases hb with hbnull | ⟨t, hbt, _, ht, hc⟩
    · subst hbnull
      exact ⟨.inl rfl, fun s' entry' t' _ _ _ => by simp⟩
    · subst hbt
      refine ⟨.inr ⟨s, t, entry, rfl, rfl, hf, hc⟩, ?_⟩
      intro s' entry' t' hma2 hf2 hc2 heq
      injection hma2 with hss
      subst hss
      rw [hf] at hf2
      injection hf2 with hee
      subst hee
      injection heq with htt
      subst htt
      exact hc2 hc

/-- Witness for C1 at the spec's cross-leakage scenario: candidate
`{"major": "商科", "sub_major": "计算机"}` against `ddTest`. -/
theorem sub_major_requires_containing_major_check :
    (pyGet [("country", JValue.jnull), ("degree", JValue.jnull),
            ("major", JValue.jstr "商科"), ("sub_major", JValue.jnull)] "sub_major" =
        JValue.jnull ∨
      ∃ s t entry,
        pyGet [("country", JValue.jnull), ("degree", JValue.jnull),
               ("major", JValue.jstr "商科"), ("sub_major", JValue.jnull)] "major" =
          JValue.jstr s ∧
        pyGet [("country", JValue.jnull), ("degree", JValue.jnull),
               ("major", JValue.jstr "商科"), ("sub_major", JValue.jnull)] "sub_major" =
          JValue.jstr t ∧
        findMajor ddTest.majors s = some entry ∧ t ∈ keysOf entry.2.children) ∧
    (∀ s entry t,
      pyGet [("country", JValue.jnull), ("degree", JValue.jnull),
             ("major", JValue.jstr "商科"), ("sub_major", JValue.jnull)] "major" =
        JValue.jstr s →
      findMajor ddTest.majors s = some entry → t ∉ keysOf entry.2.children →
      pyGet [("country", JValue.jnull), ("degree", JValue.jnull),
             ("major", JValue.jstr "商科"), ("sub_major", JValue.jnull)] "sub_major" ≠
        JValue.jstr t) :=
  sub_major_requires_containing_major ddTest
    [("major", JValue.jstr "商科"), ("sub_major", JValue.jstr "计算机")]
    [("country", JValue.jnull), ("degree", JValue.jnull),
     ("major", JValue.jstr "商科"), ("sub_major", JValue.jnull)] rfl

lemma findMajor_mem {M : List (String × MajorInfo)} {s : String}
    {entry : String × MajorInfo} (hf : findMajor M s = some entry) :
    s ∈ keysOf M := by
  have hbeq := List.find?_some hf
  have hmem := List.mem_of_find?_eq_some hf
  have heq : entry.1 = s := by simpa using hbeq
  exact heq ▸ List.mem_map_of_mem Prod.fst hmem

lemma findMajor_eq_none {M : List (String × MajorInfo)} {s : String}
    (hs : s ∉ keysOf M) : findMajor M s = none := by
  unfold findMajor
  rw [List.find?_eq_none]
  intro p hp hbeq
  apply hs
  have heq : p.1 = s := by simpa using hbeq
  exact heq ▸ List.mem_map_of_mem Prod.fst hp

lemma checkMajors_reject_major {M : List (String × MajorInfo)} {s : String}
    {sub : JValue} (hf : findMajor M s = none) :
    checkMajors M (.jstr s) sub = .ok (.jnull, .jnull) := by
  by_cases hs : s = ""
  · subst hs; simp [checkMajors, truthy]
  · simp [checkMajors, truthy, hs, hf]

/-- C2: every non-null label in a validated result is an exact,
case-sensitive key of the corresponding vocabulary and is the verbatim
candidate string (no normalization or synonym resolution), and any
string candidate that is not such a key is resolved to null. -/
theorem validated_fields_are_exact_keys
    (dd : DataDicts) (c v : JObj) (h : validateResult dd c = .ok v) :
    (pyGet v "country" = .jnull ∨ ∃ s, pyGet v "country" = .jstr s ∧
      s ∈ keysOf dd.countries ∧ pyGet c "country" = .jstr s) ∧
    (pyGet v "degree" = .jnull ∨ ∃ s, pyGet v "degree" = .jstr s ∧
      s ∈ keysOf dd.degrees ∧ pyGet c "degree" = .jstr s) ∧
    (pyGet v "major" = .jnull ∨ ∃ s, pyGet v "major" = .jstr s ∧
      s ∈ keysOf dd.majors ∧ pyGet c "major" = .jstr s) ∧
    (pyGet v "sub_major" = .jnull ∨ ∃ s t entry, pyGet v "major" = .jstr s ∧
      findMajor dd.majors s = some entry ∧ pyGet v "sub_major" = .jstr t ∧
      t ∈ keysOf entry.2.children ∧ pyGet c "sub_major" = .jstr t) ∧
    (∀ s, pyGet c "country" = .jstr s → s ∉ keysOf dd.countries →
      pyGet v "country" = .jnull) ∧
    (∀ s, pyGet c "degree" = .jstr s → s ∉ keysOf dd.degrees →
      pyGet v "degree" = .jnull) ∧
    (∀ s, pyGet c "major" = .jstr s → s ∉ keysOf dd.majors →
      pyGet v "major" = .jnull ∧ pyGet v "sub_major" = .jnull) := by
  obtain ⟨co, de, ma, su, h1, h2, h3, hv⟩ := validateResult_ok_elim h
  subst hv
  rw [pyGet_built_country, pyGet_built_degree, pyGet_built_major,
    pyGet_built_sub_major]
  refine ⟨?_, ?_, ?_, ?_, ?_, ?_, ?_⟩
  · rcases fieldCheck_ok_cases h1 with hnull | ⟨s, hw, hcand, _, hmem⟩
    · exact .inl hnull
    · exact .inr ⟨s, hw, hmem, hcand⟩
  · rcases fieldCheck_ok_cases h2 with hnull | ⟨s, hw, hcand, _, hmem⟩
    · exact .inl hnull
    · exact .inr ⟨s, hw, hmem, hcand⟩
  · rcases checkMajors_ok_cases h3 with ⟨hma, _⟩ | ⟨s, entry, ha, hcand, _, hf, _⟩
    · exact .inl hma
    · exact .inr ⟨s, ha, findMajor_mem hf, hcand⟩
  · rcases checkMajors_ok_cases h3 with ⟨_, hsu⟩ | ⟨s, entry, ha, _, _, hf, hb⟩
    · exact .inl hsu
    · rcases hb with hnull | ⟨t, hbt, hscand, _, hc⟩
      · exact .inl hnull
      · exact .inr ⟨s, t, entry, ha, hf, hbt, hc, hscand⟩
  · intro s hcand hmem
    rw [hcand, fieldCheck_reject hmem] at h1
    injection h1 with e
    exact e.symm
  · intro s hcand hmem
    rw [hcand, fieldCheck_reject hmem] at h2
    injection h2 with e
    exact e.symm
  · intro s hcand hmem
    rw [hcand, checkMajors_reject_major (findMajor_eq_none hmem)] at h3
    injection h3 with e
    injection e with e1 e2
    exact ⟨e1.symm, e2.symm⟩

/-- Witness for C2 at the spec's malformed-wrapping scenario: candidate
`{"country": "美国", "degree": "硕士"}` against `ddTest`. -/
theorem validated_fields_are_exact_keys_check :
    pyGet [("country", JValue.jstr "美国"), ("degree", JValue.jstr "硕士"),
           ("major", JValue.jnull), ("sub_major", JValue.jnull)] "country" =
        JValue.jnull ∨
    ∃ s, pyGet [("country", JValue.jstr "美国"), ("degree", JValue.jstr "硕士"),
                ("major", JValue.jnull), ("sub_major", JValue.jnull)] "country" =
        JValue.jstr s ∧
      s ∈ keysOf ddTest.countries ∧
      pyGet [("country", JValue.jstr "美国"), ("degree", JValue.jstr "硕士")]
        "country" = JValue.jstr s :=
  (validated_fields_are_exact_keys ddTest
    [("country", JValue.jstr "美国"), ("degree", JValue.jstr "硕士")]
    [("country", JValue.jstr "美国"), ("degree", JValue.jstr "硕士"),
     ("major", JValue.jnull), ("sub_major", JValue.jnull)] rfl).1

lemma pyGet_of_not_hasKey {obj : JObj} {k : String}
    (h : hasKey obj k = false) : pyGet obj k = .jnull := by
  unfold pyGet
  rw [List.find?_eq_none.mpr]
  intro p hp
  simp only [hasKey, List.any_eq_false] at h
  simpa using h p hp

lemma hasKey_append (l1 l2 : JObj) (k : String) :
    hasKey (l1 ++ l2) k = (hasKey l1 k || hasKey l2 k) := by
  simp [hasKey, List.any_append]

lemma validated_country_null_of_falsy {dd : DataDicts} {c v : JObj}
    (h : validateResult dd c = .ok v)
    (hf : truthy (pyGet c "country") = false) : pyGet v "country" = .jnull := by
  obtain ⟨co, de, ma, su, h1, h2, h3, hv⟩ := validateResult_ok_elim h
  subst hv
  rw [pyGet_built_country]
  have := (fieldCheck_of_falsy hf).symm.trans h1
  injection this with e
  exact e.symm

lemma validated_degree_null_of_falsy {dd : DataDicts} {c v : JObj}
    (h : validateResult dd c = .ok v)
    (hf : truthy (pyGet c "degree") = false) : pyGet v "degree" = .jnull := by
  obtain ⟨co, de, ma, su, h1, h2, h3, hv⟩ := validateResult_ok_elim h
  subst hv
  rw [pyGet_built_degree]
  have := (fieldCheck_of_falsy hf).symm.trans h2
  injection this with e
  exact e.symm

lemma validated_major_null_of_falsy {dd : DataDicts} {c v : JObj}
    (h : validateResult dd c = .ok v)
    (hf : truthy (pyGet c "major") = false) :
    pyGet v "major" = .jnull ∧ pyGet v "sub_major" = .jnull := by
  obtain ⟨co, de, ma, su, h1, h2, h3, hv⟩ := validateResult_ok_elim h
  subst hv
  rw [pyGet_built_major, pyGet_built_sub_major]
  have := (checkMajors_of_falsy hf).symm.trans h3
  injection this with e
  injection e with e1 e2
  exact ⟨e1.symm, e2.symm⟩

lemma validated_sub_null_of_falsy {dd : DataDicts} {c v : JObj}
    (h : validateResult dd c = .ok v)
    (hf : truthy (pyGet c "sub_major") = false) : pyGet v "sub_major" = .jnull := by
  obtain ⟨co, de, ma, su, h1, h2, h3, hv⟩ := validateResult_ok_elim h
  subst hv
  rw [pyGet_built_sub_major]
  rcases checkMajors_ok_cases h3 with ⟨_, hsu⟩ | ⟨s, entry, _, _, _, _, hb⟩
  · exact hsu
  · rcases hb with hnull | ⟨t, _, hscand, ht, _⟩
    · exact hnull
    · rw [hscand] at hf
      simp [truthy, ht] at hf

/-- C9: a validated result holds exactly the four label keys, in order,
plus an `error` key exactly when the candidate had one, whose value is
carried through unchanged; every other candidate key is dropped. -/
theorem validated_key_set
    (dd : DataDicts) (c v : JObj) (h : validateResult dd c = .ok v) :
    keysOf v = ["country", "degree", "major", "sub_major"] ++
      (if hasKey c "error" then ["error"] else []) ∧
    (hasKey c "error" = true → pyGet v "error" = pyGet c "error") ∧
    (hasKey c "error" = false → hasKey v "error" = false) := by
  obtain ⟨co, de, ma, su, h1, h2, h3, hv⟩ := validateResult_ok_elim h
  subst hv
  by_cases he : hasKey c "error" = true
  · simp only [he, if_true]
    refine ⟨rfl, fun _ => pyGet_built_error co de ma su (pyGet c "error"), ?_⟩
    intro hf
    cases hf
  · have he' : hasKey c "error" = false := by
      revert he; cases hasKey c "error" <;> simp
    simp only [he', if_false, Bool.false_eq_true]
    refine ⟨rfl, ?_, fun _ => hasKey_built_no_error co de ma su⟩
    intro ht
    cases ht

/-- Witness for C9: the candidate `{"country": "美国", "degree": "硕士"}`
has no `error` key, so the validated result has exactly the four label
keys. -/
theorem validated_key_set_check :
    keysOf ([("country", JValue.jstr "美国"), ("degree", JValue.jstr "硕士"),
             ("major", JValue.jnull), ("sub_major", JValue.jnull)] : JObj) =
      ["country", "degree", "major", "sub_major"] ++
        (if hasKey [("country", JValue.jstr "美国"), ("degree", JValue.jstr "硕士")]
            "error" then ["error"] else []) :=
  (validated_key_set ddTest
    [("country", JValue.jstr "美国"), ("degree", JValue.jstr "硕士")]
    [("country", JValue.jstr "美国"), ("degree", JValue.jstr "硕士"),
     ("major", JValue.jnull), ("sub_major", JValue.jnull)] rfl).1

/-- C10: a falsy candidate (absent key, `None`, empty string, or any
other falsy value) is resolved to null whatever the taxonomy holds, and
a non-null output field requires a truthy candidate. -/
theorem falsy_candidates_resolve_to_null
    (dd : DataDicts) (c v : JObj) (h : validateResult dd c = .ok v) :
    (truthy (pyGet c "country") = false → pyGet v "country" = .jnull) ∧
    (truthy (pyGet c "degree") = false → pyGet v "degree" = .jnull) ∧
    (truthy (pyGet c "major") = false →
      pyGet v "major" = .jnull ∧ pyGet v "sub_major" = .jnull) ∧
    (truthy (pyGet c "sub_major") = false → pyGet v "sub_major" = .jnull) ∧
    (pyGet v "country" ≠ .jnull → truthy (pyGet c "country") = true) ∧
    (pyGet v "degree" ≠ .jnull → truthy (pyGet c "degree") = true) ∧
    (pyGet v "major" ≠ .jnull → truthy (pyGet c "major") = true) ∧
    (pyGet v "sub_major" ≠ .jnull → truthy (pyGet c "sub_major") = true) := by
  refine ⟨validated_country_null_of_falsy h, validated_degree_null_of_falsy h,
    validated_major_null_of_falsy h, validated_sub_null_of_falsy h,
    ?_, ?_, ?_, ?_⟩
  · intro hne
    by_contra hft
    exact hne (validated_country_null_of_falsy h (by
      revert hft; cases truthy (pyGet c "country") <;> simp))
  · intro hne
    by_contra hft
    exact hne (validated_degree_null_of_falsy h (by
      revert hft; cases truthy (pyGet c "degree") <;> simp))
  · intro hne
    by_contra hft
    exact hne ((validated_major_null_of_falsy h (by
      revert hft; cases truthy (pyGet c "major") <;> simp)).1)
  · intro hne
    by_contra hft
    exact hne (validated_sub_null_of_falsy h (by
      revert hft; cases truthy (pyGet c "sub_major") <;> simp))

/-- Witness for C10: the candidate holding an empty-string country and
a `None` degree is resolved to all-null. -/
theorem falsy_candidates_resolve_to_null_check :
    truthy (pyGet [("country", JValue.jstr ""), ("degree", JValue.jnull)]
      "country") = false ∧
    pyGet [("country", JValue.jnull), ("degree", JValue.jnull),
           ("major", JValue.jnull), ("sub_major", JValue.jnull)] "country" =
      JValue.jnull :=
  ⟨rfl, (falsy_candidates_resolve_to_null ddTest
    [("country", JValue.jstr ""), ("degree", JValue.jnull)]
    [("country", JValue.jnull), ("degree", JValue.jnull),
     ("major", JValue.jnull), ("sub_major", JValue.jnull)] rfl).1 rfl⟩

/-- C6 (amended): for an object reply, missing keys are resolved to
null by the Validator and the `error` key of the result mirrors the
candidate's (validation rejections never create one); a syntactically
valid reply that is not an object, however, makes the Validator's
attribute access raise instead of being handled permissively. -/
theorem missing_keys_null_and_error_only_carried
    (dd : DataDicts) (c v : JObj) (h : validateResult dd c = .ok v) :
    (hasKey c "country" = false → pyGet v "country" = .jnull) ∧
    (hasKey c "degree" = false → pyGet v "degree" = .jnull) ∧
    (hasKey c "major" = false →
      pyGet v "major" = .jnull ∧ pyGet v "sub_major" = .jnull) ∧
    (hasKey c "sub_major" = false → pyGet v "sub_major" = .jnull) ∧
    (hasKey v "error" = hasKey c "error") := by
  refine ⟨?_, ?_, ?_, ?_, ?_⟩
  · intro hk
    exact validated_country_null_of_falsy h (by rw [pyGet_of_not_hasKey hk]; rfl)
  · intro hk
    exact validated_degree_null_of_falsy h (by rw [pyGet_of_not_hasKey hk]; rfl)
  · intro hk
    exact validated_major_null_of_falsy h (by rw [pyGet_of_not_hasKey hk]; rfl)
  · intro hk
    exact validated_sub_null_of_falsy h (by rw [pyGet_of_not_hasKey hk]; rfl)
  · obtain ⟨co, de, ma, su, h1, h2, h3, hv⟩ := validateResult_ok_elim h
    subst hv
    by_cases he : hasKey c "error" = true
    · rw [hasKey_append, he]
      simp [hasKey]
    · have he' : hasKey c "error" = false := by
        revert he; cases hasKey c "error" <;> simp
      rw [hasKey_append, he']
      simp [hasKey]

/-- Witness for C6 at an object reply missing the `major` and
`sub_major` keys and carrying no `error` key. -/
theorem missing_keys_null_and_error_only_carried_check :
    hasKey [("country", JValue.jstr "美国"), ("degree", JValue.jstr "硕士")]
      "major" = false ∧
    (pyGet [("country", JValue.jstr "美国"), ("degree", JValue.jstr "硕士"),
            ("major", JValue.jnull), ("sub_major", JValue.jnull)] "major" =
        JValue.jnull ∧
      pyGet [("country", JValue.jstr "美国"), ("degree", JValue.jstr "硕士"),
             ("major", JValue.jnull), ("sub_major", JValue.jnull)] "sub_major" =
        JValue.jnull) :=
  ⟨rfl, (missing_keys_null_and_error_only_carried ddTest
    [("country", JValue.jstr "美国"), ("degree", JValue.jstr "硕士")]
    [("country", JValue.jstr "美国"), ("degree", JValue.jstr "硕士"),
     ("major", JValue.jnull), ("sub_major", JValue.jnull)] rfl).2.2.1 rfl⟩

/-- Counterexample to C6 as stated: `"[1, 2]"` is syntactically valid
JSON that is not an object; the pipeline does not treat it permissively
— the Validator's attribute access raises, `extract` catches, and the
`error` field of the final result is populated although no JSON-level
decode failure occurred. -/
theorem nonobject_reply_populates_error :
    jsonLoads "[1, 2]" = .ok (.jarr [.jnum 1, .jnum 2]) ∧
    validateValue ddTest (.jarr [.jnum 1, .jnum 2]) =
      .error "'list' object has no attribute 'get'" ∧
    pyGet (extract ddTest (.success "[1, 2]")) "error" =
      .jstr "'list' object has no attribute 'get'" :=
  ⟨rfl, rfl, rfl⟩

/-- C8: the Validator is idempotent — its output, fed back as a
candidate with the same taxonomy, validates to itself. -/
theorem validator_idempotent
    (dd : DataDicts) (c v : JObj) (h : validateResult dd c = .ok v) :
    validateResult dd v = .ok v := by
  obtain ⟨co, de, ma, su, h1, h2, h3, hv⟩ := validateResult_ok_elim h
  have hco : fieldCheck co (keysOf dd.countries) = .ok co := by
    rcases fieldCheck_ok_cases h1 with hnull | ⟨s, hw, _, hs, hmem⟩
    · subst hnull; exact fieldCheck_of_falsy rfl
    · subst hw; exact fieldCheck_accept hs hmem
  have hde : fieldCheck de (keysOf dd.degrees) = .ok de := by
    rcases fieldCheck_ok_cases h2 with hnull | ⟨s, hw, _, hs, hmem⟩
    · subst hnull; exact fieldCheck_of_falsy rfl
    · subst hw; exact fieldCheck_accept hs hmem
  have hmasu : checkMajors dd.majors ma su = .ok (ma, su) := by
    rcases checkMajors_ok_cases h3 with ⟨hma, hsu⟩ | ⟨s, entry, ha, _, hs, hf, hb⟩
    · subst hma; subst hsu; exact checkMajors_of_falsy rfl
    · subst ha
      rcases hb with hnull | ⟨t, hbt, _, ht, hc⟩
      · subst hnull; exact checkMajors_accept_major hs hf
      · subst hbt; exact checkMajors_accept_both hs hf ht hc
  subst hv
  by_cases he : hasKey c "error" = true
  · simp only [he, if_true]
    have g1 : fieldCheck
        (pyGet ([("country", co), ("degree", de), ("major", ma),
          ("sub_major", su)] ++ [("error", pyGet c "error")]) "country")
        (keysOf dd.countries) = .ok co := by
      rw [pyGet_built_country]; exact hco
    have g2 : fieldCheck
        (pyGet ([("country", co), ("degree", de), ("major", ma),
          ("sub_major", su)] ++ [("error", pyGet c "error")]) "degree")
        (keysOf dd.degrees) = .ok de := by
      rw [pyGet_built_degree]; exact hde
    have g3 : checkMajors dd.majors
        (pyGet ([("country", co), ("degree", de), ("major", ma),
          ("sub_major", su)] ++ [("error", pyGet c "error")]) "major")
        (pyGet ([("country", co), ("degree", de), ("major", ma),
          ("sub_major", su)] ++ [("error", pyGet c "error")]) "sub_major") =
        .ok (ma, su) := by
      rw [pyGet_built_major, pyGet_built_sub_major]; exact hmasu
    rw [validateResult_ok_intro g1 g2 g3, hasKey_built_error, pyGet_built_error]
    simp
  · have he' : hasKey c "error" = false := by
      revert he; cases hasKey c "error" <;> simp
    simp only [he', Bool.false_eq_true, if_false, List.append_nil]
    have g1 : fieldCheck
        (pyGet [("country", co), ("degree", de), ("major", ma),
          ("sub_major", su)] "country") (keysOf dd.countries) = .ok co := by
      rw [show pyGet [("country", co), ("degree", de), ("major", ma),
        ("sub_major", su)] "country" = co from rfl]
      exact hco
    have g2 : fieldCheck
        (pyGet [("country", co), ("degree", de), ("major", ma),
          ("sub_major", su)] "degree") (keysOf dd.degrees) = .ok de := by
      rw [show pyGet [("country", co), ("degree", de), ("major", ma),
        ("sub_major", su)] "degree" = de from rfl]
      exact hde
    have g3 : checkMajors dd.majors
        (pyGet [("country", co), ("degree", de), ("major", ma),
          ("sub_major", su)] "major")
        (pyGet [("country", co), ("degree", de), ("major", ma),
          ("sub_major", su)] "sub_major") = .ok (ma, su) := by
      rw [show pyGet [("country", co), ("degree", de), ("major", ma),
        ("sub_major", su)] "major" = ma from rfl]
      rw [show pyGet [("country", co), ("degree", de), ("major", ma),
        ("sub_major", su)] "sub_major" = su from rfl]
      exact hmasu
    rw [validateResult_ok_intro g1 g2 g3, hasKey_built_no_error]
    simp

/-- Witness for C8: revalidating the validated spec scenario result
returns it unchanged. -/
theorem validator_idempotent_check :
    validateResult ddTest
      [("country", JValue.jstr "美国"), ("degree", JValue.jstr "硕士"),
       ("major", JValue.jnull), ("sub_major", JValue.jnull)] =
    .ok [("country", JValue.jstr "美国"), ("degree", JValue.jstr "硕士"),
         ("major", JValue.jnull), ("sub_major", JValue.jnull)] :=
  validator_idempotent ddTest
    [("country", JValue.jstr "美国"), ("degree", JValue.jstr "硕士")]
    [("country", JValue.jstr "美国"), ("degree", JValue.jstr "硕士"),
     ("major", JValue.jnull), ("sub_major", JValue.jnull)] rfl

/-- Counterexample to C3 as stated: a transport failure of the backend
call does not propagate out of `extract`; it is converted into a
normal result dict whose `error` field holds the cause. -/
theorem transport_failure_returned_as_result :
    extract ddTest (.failure "Connection error.") =
      exceptionResult "Connection error." ∧
    pyGet (exceptionResult "Connection error.") "error" =
      .jstr "Connection error." ∧
    keysOf (exceptionResult "Connection error.") =
      ["country", "degree", "major", "sub_major", "error",
       "_raw_ai_response", "_full_ai_response"] :=
  ⟨rfl, rfl, rfl⟩

/-- C3 (amended): a transport failure of the backend call is caught by
`extract` and converted into the all-null result whose `error` field
carries the underlying cause's message; the single call outcome is
consumed once, with no retry. -/
theorem transport_failure_converted_to_error_result :
    ∀ (dd : DataDicts) (e : String),
      extract dd (.failure e) = exceptionResult e ∧
      pyGet (exceptionResult e) "country" = .jnull ∧
      pyGet (exceptionResult e) "degree" = .jnull ∧
      pyGet (exceptionResult e) "major" = .jnull ∧
      pyGet (exceptionResult e) "sub_major" = .jnull ∧
      pyGet (exceptionResult e) "error" = .jstr e :=
  fun _ _ => ⟨rfl, rfl, rfl, rfl, rfl, rfl⟩

/-- C4: the Parser prefers the interior of a fenced JSON block, falls
back to the whole trimmed text, and recovers any decode failure locally
into the all-null dict with a diagnostic `error` — it never raises. -/
theorem parser_fenced_then_bare_with_recovery :
    (∀ (text : String) (s : List Char), extractFenced text.toList = some s →
      selectJsonSource text = String.mk s) ∧
    (∀ text : String, extractFenced text.toList = none →
      selectJsonSource text = pyStrip text) ∧
    (∀ (text : String) (v : JValue), jsonLoads (selectJsonSource text) = .ok v →
      parseResponse text = v) ∧
    (∀ (text e : String), jsonLoads (selectJsonSource text) = .error e →
      parseResponse text =
        .jobj [("country", .jnull), ("degree", .jnull), ("major", .jnull),
               ("sub_major", .jnull),
               ("error", .jstr ("JSON解析失败: " ++ e))]) := by
  refine ⟨?_, ?_, ?_, ?_⟩
  · intro text s hx
    unfold selectJsonSource
    rw [hx]
  · intro text hx
    unfold selectJsonSource
    rw [hx]
  · intro text v hx
    simp [parseResponse, hx]
  · intro text e hx
    simp [parseResponse, hx, parseFailureObj]

/-- Witness for C4: the fenced spec scenario selects the block interior,
and the non-JSON reply `"I am not sure."` recovers into the all-null
diagnostic dict. -/
theorem parser_fenced_then_bare_with_recovery_check :
    selectJsonSource "Sure! ```json\n\x7b\"country\": \"美国\", \"degree\": \"硕士\"\x7d\n```" =
      String.mk "\x7b\"country\": \"美国\", \"degree\": \"硕士\"\x7d".toList ∧
    parseResponse "I am not sure." =
      .jobj [("country", .jnull), ("degree", .jnull), ("major", .jnull),
             ("sub_major", .jnull),
             ("error", .jstr ("JSON解析失败: " ++ "Expecting value"))] :=
  ⟨parser_fenced_then_bare_with_recovery.1
      "Sure! ```json\n\x7b\"country\": \"美国\", \"degree\": \"硕士\"\x7d\n```"
      "\x7b\"country\": \"美国\", \"degree\": \"硕士\"\x7d".toList rfl,
    parser_fenced_then_bare_with_recovery.2.2.2 "I am not sure."
      "Expecting value" rfl⟩

/-- C7: with no credential (the empty string `st.secrets.get` falls
back to), agent construction fails with the configuration error and
performs no effect at all — in particular the chat-model client is
never created and no backend call can be attempted; and no successful
construction performs a backend call either. -/
theorem missing_credential_fails_before_client :
    ∀ (model : String) (dd : DataDicts) (custom : Option String),
      create_ai_agent "" model dd custom =
        ([], .error "请配置DASHSCOPE_API_KEY") ∧
      ∀ key : String,
        Effect.backendCall ∉ (create_ai_agent key model dd custom).1 := by
  intro model dd custom
  refine ⟨rfl, ?_⟩
  intro key
  by_cases hk : key = ""
  · subst hk
    simp [create_ai_agent]
  · simp [create_ai_agent, hk]

set_option maxRecDepth 10000 in
/-- Counterexample to C5 as stated: on a concrete taxonomy, formatting
`DEFAULT_PROMPT_TEMPLATE` (which contains the literal placeholders)
with the inline renderings does not reproduce the default
no-placeholder path — the two templates' fixed texts differ. -/
theorem prompt_roundtrip_not_identity :
    buildPromptApp ddTest DEFAULT_PROMPT_TEMPLATE ≠ create_default_prompt ddTest := by
  decide

lemma pyJoin_append (sep : String) (xs ys : List String)
    (hx : xs ≠ []) (hy : ys ≠ []) :
    pyJoin sep (xs ++ ys) = pyJoin sep xs ++ sep ++ pyJoin sep ys := by
  induction xs with
  | nil => cases hx rfl
  | cons x rest ih =>
    cases rest with
    | nil =>
      cases ys with
      | nil => cases hy rfl
      | cons y yr => simp [pyJoin]
    | cons x2 rest2 =>
      have h2 : x2 :: rest2 ≠ [] := by simp
      calc pyJoin sep ((x :: x2 :: rest2) ++ ys)
          = x ++ sep ++ pyJoin sep ((x2 :: rest2) ++ ys) := rfl
        _ = x ++ sep ++ (pyJoin sep (x2 :: rest2) ++ sep ++ pyJoin sep ys) := by
            rw [ih h2]
        _ = pyJoin sep (x :: x2 :: rest2) ++ sep ++ pyJoin sep ys := by
            show _ = (x ++ sep ++ pyJoin sep (x2 :: rest2)) ++ sep ++ pyJoin sep ys
            simp only [String.append_assoc]

lemma pyJoin_cons_indent (k : String) (cs : List String) (h : cs ≠ []) :
    pyJoin "\n" (k :: cs.map (fun c => "  - " ++ c)) =
      k ++ "\n  - " ++ pyJoin "\n  - " cs := by
  induction cs generalizing k with
  | nil => cases h rfl
  | cons c rest ih =>
    cases rest with
    | nil =>
      show k ++ "\n" ++ ("  - " ++ c) = k ++ "\n  - " ++ c
      simp only [String.append_assoc]
      rfl
    | cons c2 r2 =>
      have h2 : c2 :: r2 ≠ [] := by simp
      calc pyJoin "\n" (k :: (c :: c2 :: r2).map (fun x => "  - " ++ x))
          = k ++ "\n" ++
              pyJoin "\n" (("  - " ++ c) :: (c2 :: r2).map (fun x => "  - " ++ x)) := rfl
        _ = k ++ "\n" ++ (("  - " ++ c) ++ "\n  - " ++ pyJoin "\n  - " (c2 :: r2)) := by
            rw [ih ("  - " ++ c) h2]
        _ = k ++ "\n  - " ++ pyJoin "\n  - " (c :: c2 :: r2) := by
            show _ = k ++ "\n  - " ++ (c ++ "\n  - " ++ pyJoin "\n  - " (c2 :: r2))
            simp only [String.append_assoc]
            rfl

lemma major_render_eq (M : List (String × MajorInfo))
    (h : ∀ p ∈ M, p.2.children ≠ []) :
    pyJoin "\n" (M.map (fun p =>
        p.1 ++ "\n  - " ++ pyJoin "\n  - " (p.2.children.map Prod.fst))) =
      pyJoin "\n"
        ((M.map (fun p => p.1 :: p.2.children.map (fun c => "  - " ++ c.1))).flatten) := by
  induction M with
  | nil => rfl
  | cons p rest ih =>
    have hp : p.2.children ≠ [] := h p (by simp)
    have hmap : p.2.children.map Prod.fst ≠ [] := by
      simpa using hp
    have hrow : pyJoin "\n" (p.1 :: p.2.children.map (fun c => "  - " ++ c.1)) =
        p.1 ++ "\n  - " ++ pyJoin "\n  - " (p.2.children.map Prod.fst) := by
      rw [← pyJoin_cons_indent p.1 (p.2.children.map Prod.fst) hmap, List.map_map]
      rfl
    have hrest : ∀ q ∈ rest, q.2.children ≠ [] := fun q hq => h q (by simp [hq])
    cases rest with
    | nil =>
      simp only [List.map_cons, List.map_nil, List.flatten_cons, List.flatten_nil,
        List.append_nil]
      exact hrow.symm
    | cons q r2 =>
      have hflat :
          ((q :: r2).map (fun p =>
            p.1 :: p.2.children.map (fun c => "  - " ++ c.1))).flatten ≠ [] := by
        simp
      calc pyJoin "\n" ((p :: q :: r2).map (fun p =>
              p.1 ++ "\n  - " ++ pyJoin "\n  - " (p.2.children.map Prod.fst)))
          = (p.1 ++ "\n  - " ++ pyJoin "\n  - " (p.2.children.map Prod.fst)) ++ "\n" ++
              pyJoin "\n" ((q :: r2).map (fun p =>
                p.1 ++ "\n  - " ++ pyJoin "\n  - " (p.2.children.map Prod.fst))) := rfl
        _ = pyJoin "\n" (p.1 :: p.2.children.map (fun c => "  - " ++ c.1)) ++ "\n" ++
              pyJoin "\n" (((q :: r2).map (fun p =>
                p.1 :: p.2.children.map (fun c => "  - " ++ c.1))).flatten) := by
            rw [hrow, ih hrest]
        _ = pyJoin "\n" ((p.1 :: p.2.children.map (fun c => "  - " ++ c.1)) ++
              ((q :: r2).map (fun p =>
                p.1 :: p.2.children.map (fun c => "  - " ++ c.1))).flatten) := by
            rw [pyJoin_append "\n" _ _ (by simp) hflat]
        _ = pyJoin "\n" (((p :: q :: r2).map (fun p =>
              p.1 :: p.2.children.map (fun c => "  - " ++ c.1))).flatten) := rfl

/-- C5 (amended): the placeholder-substitution path and the default
no-placeholder path do not produce the same prompt string (their fixed
template texts differ), but the three vocabulary renderings they embed
coincide: always for countries and degrees, and for majors whenever
every top-level major has at least one sub-major. -/
theorem prompt_paths_agree_on_renderings
    (dd : DataDicts) (h : ∀ p ∈ dd.majors, p.2.children ≠ []) :
    appCountryList dd = get_country_list dd.countries ∧
    appDegreeList dd = get_degree_list dd.degrees ∧
    appMajorList dd = get_major_list dd.majors :=
  ⟨rfl, rfl, major_render_eq dd.majors h⟩

/-- Witness for C5 (amended) on the concrete test taxonomy, every major
of which has a sub-major. -/
theorem prompt_paths_agree_on_renderings_check :
    appCountryList ddTest = get_country_list ddTest.countries ∧
    appDegreeList ddTest = get_degree_list ddTest.degrees ∧
    appMajorList ddTest = get_major_list ddTest.majors :=
  prompt_paths_agree_on_renderings ddTest (by decide)
